import Mathlib

/-!
Verification of the two threebot command handlers, `bind` and `search`
(`src/threebot/commands/bind.py`, `src/threebot/commands/search.py`),
against their natural-language specification.

The store is embedded shallowly:
* the `binds` table is a `List (String × String)` of `(username, bind)` rows
  in insertion order;
* the `aliases` table is a `List AliasRow` in insertion order, and
  `ORDER BY commandname` is a stable sort by the `commandname` column under
  the byte-wise (BINARY) collation, which on the character level is
  lexicographic comparison of the character lists;
* `fetchone` returns the first matching row, mutations (`INSERT`, `UPDATE`)
  act on the list directly.

External collaborators (`resolve_sound_or_alias`, `into_pages`) are
parameters of the embedded handlers; replies and played sounds are collected
in lists; a raised exception becomes an `error` field holding its message.
-/

/-- Byte-wise (sqlite BINARY / Python `<=`) lexicographic comparison of two
character lists; `ORDER BY commandname` sorts ascending under this order. -/
def charListLe : List Char → List Char → Bool
  | [], _ => true
  | _ :: _, [] => false
  | a :: as, b :: bs => if a < b then true else if b < a then false else charListLe as bs

/-- Python `s.startswith(p)`: `p` is a literal, case-sensitive character
prefix of `s`. -/
def pyStartsWith (s p : String) : Bool :=
  p.toList.isPrefixOf s.toList

/-- Python `int(s)`: strip surrounding whitespace, allow one optional sign,
then require one or more decimal digits; `none` models the `ValueError`
raised on any other input. -/
def pythonInt (s : String) : Option Int :=
  let cs := ((s.toList.dropWhile Char.isWhitespace).reverse.dropWhile Char.isWhitespace).reverse
  match cs with
  | [] => none
  | c :: rest =>
    let signed : Int × List Char :=
      if c = '-' then (-1, rest) else if c = '+' then (1, rest) else (1, c :: rest)
    if signed.2 ≠ [] ∧ signed.2.all Char.isDigit then
      some (signed.1 * (signed.2.foldl (fun acc d => acc * 10 + (d.toNat - 48)) 0 : Nat))
    else
      none

/-- Message of the `ValueError` Python raises when `int(s)` fails. -/
def intValueError (s : String) : String :=
  "invalid literal for int() with base 10: \x27" ++ s ++ "\x27"

/-! ## bind.py -/

/-- Outcome of one `bind.execute` invocation: the `binds` table after the
call, the replies emitted through `data.reply`, the sounds played through
`data.util.play_sound_or_alias`, and the message of the raised exception,
if any. -/
structure BindResult where
  binds : List (String × String)
  replies : List String
  played : List String
  error : Option String
deriving DecidableEq, Repr

/-- Row predicate of `WHERE username=?`. -/
def userIs (author : String) (r : String × String) : Bool :=
  r.1 == author

/-- Cursor `fetchone` for `SELECT bind FROM binds WHERE username=?`: the
`bind` column of the first matching row, if any. -/
def fetchBind (binds : List (String × String)) (author : String) : Option String :=
  ((binds.filter (userIs author)).head?).map (fun r => r.2)

/-- The `binds` table after `UPDATE binds SET bind=? WHERE username=?`. -/
def updateBinds (binds : List (String × String)) (author tok : String) :
    List (String × String) :=
  binds.map (fun r => if userIs author r then (r.1, tok) else r)

/-- Shallow embedding of `execute(data, argv)` of
`src/threebot/commands/bind.py`.  `resolve` embeds the external
`data.util.resolve_sound_or_alias`; `.error e` means the call raises with
message `e`. -/
def bindExecute (resolve : String → Except String Unit) (author : String)
    (binds : List (String × String)) (argv : List String) : BindResult :=
  -- c.execute('SELECT bind FROM binds WHERE username=?'); results = c.fetchone()
  let results := fetchBind binds author
  match argv with
  | [] =>
    -- len(argv) < 1
    match results with
    | none =>
      { binds := binds, replies := [], played := [],
        error := some "No bind set! Usage: bind [CODE|ALIAS]" }
    | some b =>
      { binds := binds, replies := ["Playing bind: " ++ b], played := [b], error := none }
  | [tok] =>
    -- verify the bind is a valid sound, then insert or update and commit
    match resolve tok with
    | .error e => { binds := binds, replies := [], played := [], error := some e }
    | .ok _ =>
      match (binds.filter (userIs author)).head? with
      | none =>
        { binds := binds ++ [(author, tok)],
          replies := ["Set bind to " ++ tok ++ "."], played := [], error := none }
      | some _ =>
        { binds := updateBinds binds author tok,
          replies := ["Set bind to " ++ tok ++ "."], played := [], error := none }
  | _ :: _ :: _ =>
    -- len(argv) > 1
    { binds := binds, replies := [], played := [],
      error := some "too many arguments. Usage: bind [CODE|ALIAS]" }

/-! ## search.py -/

/-- One row of the `aliases` table; `commandname` is column `t[0]`. -/
structure AliasRow where
  commandname : String
  action : String
  author : String
  created : String
deriving DecidableEq, Repr

/-- Ordering used by `ORDER BY commandname`. -/
def aliasLe (a b : AliasRow) : Prop :=
  charListLe a.commandname.toList b.commandname.toList = true

instance : DecidableRel aliasLe :=
  fun a b => inferInstanceAs (Decidable (charListLe a.commandname.toList b.commandname.toList = true))

/-- The intermediate `rows` value of `search.execute`: all alias rows ordered
by `commandname`, then filtered to those whose `commandname` starts with the
keyword. -/
def searchRows (aliases : List AliasRow) (kw : String) : List AliasRow :=
  (List.insertionSort aliasLe aliases).filter (fun t => pyStartsWith t.commandname kw)

/-- Outcome of one `search.execute` invocation: replies emitted in order, and
the message of the raised exception, if any. -/
structure SearchResult where
  replies : List String
  error : Option String
deriving DecidableEq, Repr

/-- The header `'Showing page {} of {}'.format(page + 1, len(pages))`. -/
def pageHeader (page : Int) (total : Nat) : String :=
  "Showing page " ++ toString (page + 1) ++ " of " ++ toString total

/-- Tail of `search.execute` after `page` has been computed: range check,
then the two replies. -/
def searchShow (pages : List String) (page : Int) : SearchResult :=
  if page < 0 ∨ (pages.length : Int) ≤ page then
    { replies := [], error := some "invalid page number" }
  else
    { replies := [pageHeader page pages.length, pages.getD page.toNat ""], error := none }

/-- Shallow embedding of `execute(data, argv)` of
`src/threebot/commands/search.py`.  `intoPages` embeds the external
`data.util.into_pages`. -/
def searchExecute (intoPages : List String → List AliasRow → List String)
    (aliases : List AliasRow) (argv : List String) : SearchResult :=
  match argv with
  | [] => { replies := [], error := some "a keyword is required" }
  | kw :: rest =>
    let rows := searchRows aliases kw
    if rows.length < 1 then
      { replies := [],
        error := some ("couldn\x27t find any aliases like \x27" ++ kw ++ "\x27") }
    else
      let pages := intoPages ["Alias", "Action", "Author", "Created"] rows
      match rest with
      | [] => searchShow pages 0
      | parg :: _ =>
        -- page = int(argv[1]) - 1; int() raises ValueError on bad input
        match pythonInt parg with
        | none => { replies := [], error := some (intValueError parg) }
        | some n => searchShow pages (n - 1)

/-! ## Demo store used for concrete witnesses -/

/-- Alias catalog with commandnames `world`, `hello`, `help` (deliberately
listed unsorted, so that `ORDER BY commandname` is exercised). -/
def demoAliases : List AliasRow :=
  [⟨"world", "w", "u1", "t1"⟩, ⟨"hello", "h", "u2", "t2"⟩, ⟨"help", "p", "u3", "t3"⟩]

/-- A concrete `into_pages`: one page per row, rendered as the commandname. -/
def demoPager (_cols : List String) (rows : List AliasRow) : List String :=
  rows.map (fun r => r.commandname)

/-- A resolver that accepts every token. -/
def demoResolve (_t : String) : Except String Unit := Except.ok ()

/-! ## Helper lemmas about the binds table -/

lemma filter_updateBinds (binds : List (String × String)) (author tok : String) :
    (updateBinds binds author tok).filter (userIs author)
      = (binds.filter (userIs author)).map (fun _ => (author, tok)) := by
  induction binds with
  | nil => rfl
  | cons r rs ih =>
    cases h : userIs author r with
    | false =>
      have e1 : updateBinds (r :: rs) author tok = r :: updateBinds rs author tok := by
        simp only [updateBinds, List.map_cons]
        rw [if_neg]
        simp [h]
      rw [e1, List.filter_cons, List.filter_cons, h]
      rw [if_neg (by simp), if_neg (by simp)]
      exact ih
    | true =>
      have h1 : r.1 = author := by simpa [userIs] using h
      have e1 : updateBinds (r :: rs) author tok = (r.1, tok) :: updateBinds rs author tok := by
        simp only [updateBinds, List.map_cons]
        rw [if_pos h]
      have h2 : userIs author (r.1, tok) = true := by simpa [userIs] using h
      rw [e1, List.filter_cons, List.filter_cons, if_pos h2, if_pos h, List.map_cons, ih, h1]

lemma filter_single_self (author tok : String) :
    List.filter (userIs author) [(author, tok)] = [(author, tok)] := by
  simp [List.filter_cons, userIs]

/-- After a successful `bind TOK`, the rows of the user in the binds table
are exactly `[(author, tok)]`, provided the at-most-one-record invariant
held before. -/
lemma bind_set_filter {resolve : String → Except String Unit} {author tok : String}
    {binds : List (String × String)}
    (hres : resolve tok = Except.ok ())
    (hinv : (binds.filter (userIs author)).length ≤ 1) :
    ((bindExecute resolve author binds [tok]).binds).filter (userIs author)
      = [(author, tok)] := by
  unfold bindExecute
  dsimp only
  rw [hres]
  cases hf : binds.filter (userIs author) with
  | nil =>
    show (binds ++ [(author, tok)]).filter (userIs author) = [(author, tok)]
    rw [List.filter_append, hf, filter_single_self]
    rfl
  | cons x xs =>
    have hxs : xs = [] := by
      have := hinv
      rw [hf] at this
      simpa using this
    show (updateBinds binds author tok).filter (userIs author) = [(author, tok)]
    rw [filter_updateBinds, hf, hxs]
    rfl

/-- After a successful `bind TOK`, `fetchone` on the user's row yields `tok`
(no invariant needed: `UPDATE` rewrites every row of the user). -/
lemma bind_set_fetch {resolve : String → Except String Unit} {author tok : String}
    {binds : List (String × String)}
    (hres : resolve tok = Except.ok ()) :
    fetchBind (bindExecute resolve author binds [tok]).binds author = some tok := by
  unfold bindExecute
  dsimp only
  rw [hres]
  cases hf : binds.filter (userIs author) with
  | nil =>
    show fetchBind (binds ++ [(author, tok)]) author = some tok
    unfold fetchBind
    rw [List.filter_append, hf, filter_single_self]
    rfl
  | cons x xs =>
    show fetchBind (updateBinds binds author tok) author = some tok
    unfold fetchBind
    rw [filter_updateBinds, hf]
    rfl

/-! ## Claims about bind.py -/

/-- C1: binding a valid token T1 and then a valid token T2 leaves exactly one
bind record for the user, and its value is T2 — the second execution updates
the existing row instead of inserting a duplicate.  The store is assumed to
satisfy the at-most-one-record-per-user invariant beforehand. -/
theorem bind_rebind_single_record (resolve : String → Except String Unit)
    (author T1 T2 : String) (binds : List (String × String))
    (h1 : resolve T1 = Except.ok ()) (h2 : resolve T2 = Except.ok ())
    (hinv : (binds.filter (userIs author)).length ≤ 1) :
    ((bindExecute resolve author (bindExecute resolve author binds [T1]).binds
        [T2]).binds).filter (userIs author) = [(author, T2)] := by
  have s1 := bind_set_filter h1 hinv
  exact bind_set_filter h2 (by rw [s1]; simp)

/-- Witness for C1 at a concrete store. -/
theorem bind_rebind_single_record_witness :
    ((bindExecute demoResolve "u" (bindExecute demoResolve "u" [("v", "x")]
        ["a"]).binds ["b"]).binds).filter (userIs "u") = [("u", "b")] :=
  bind_rebind_single_record demoResolve "u" "a" "b" [("v", "x")] rfl rfl (by decide)

/-- C2: after `bind T` with a valid token T, `bind` with no arguments replies
with the playback message referencing T. -/
theorem bind_roundtrip_replay (resolve : String → Except String Unit)
    (author T : String) (binds : List (String × String))
    (h : resolve T = Except.ok ()) :
    (bindExecute resolve author (bindExecute resolve author binds [T]).binds
        []).replies = ["Playing bind: " ++ T] := by
  have hf := @bind_set_fetch resolve author T binds h
  generalize (bindExecute resolve author binds [T]).binds = binds2 at hf ⊢
  unfold bindExecute
  dsimp only
  rw [hf]

/-- Witness for C2 at a concrete store. -/
theorem bind_roundtrip_replay_witness :
    (bindExecute demoResolve "u" (bindExecute demoResolve "u" [] ["a"]).binds
        []).replies = ["Playing bind: " ++ "a"] :=
  bind_roundtrip_replay demoResolve "u" "a" [] rfl

/-- C3: when sound resolution of the single argument raises, `bind.execute`
raises with that message and the binds table is untouched — no insert, update
or commit happens. -/
theorem bind_resolve_fail_no_write (resolve : String → Except String Unit)
    (author tok e : String) (binds : List (String × String))
    (h : resolve tok = Except.error e) :
    bindExecute resolve author binds [tok]
      = { binds := binds, replies := [], played := [], error := some e } := by
  unfold bindExecute
  dsimp only
  rw [h]

/-- Witness for C3 at a concrete store. -/
theorem bind_resolve_fail_no_write_witness :
    bindExecute (fun _ => Except.error "boom") "u" [("u", "old")] ["x"]
      = { binds := [("u", "old")], replies := [], played := [],
          error := some "boom" } :=
  bind_resolve_fail_no_write (fun _ => Except.error "boom") "u" "x" "boom"
    [("u", "old")] rfl

/-- C6: for a user with no bind record, `bind` with no arguments raises the
no-bind-set error and neither plays a sound nor replies. -/
theorem bind_noargs_no_record (resolve : String → Except String Unit)
    (author : String) (binds : List (String × String))
    (h : binds.filter (userIs author) = []) :
    bindExecute resolve author binds []
      = { binds := binds, replies := [], played := [],
          error := some "No bind set! Usage: bind [CODE|ALIAS]" } := by
  unfold bindExecute fetchBind
  dsimp only
  rw [h]
  rfl

/-- Witness for C6 at a concrete store. -/
theorem bind_noargs_no_record_witness :
    bindExecute demoResolve "u" [("v", "x")] []
      = { binds := [("v", "x")], replies := [], played := [],
          error := some "No bind set! Usage: bind [CODE|ALIAS]" } :=
  bind_noargs_no_record demoResolve "u" [("v", "x")] (by decide)

/-- C8: with two or more arguments `bind.execute` raises the too-many-arguments
error and leaves the store unchanged, whatever its state. -/
theorem bind_too_many_args (resolve : String → Except String Unit)
    (author a b : String) (rest : List String) (binds : List (String × String)) :
    bindExecute resolve author binds (a :: b :: rest)
      = { binds := binds, replies := [], played := [],
          error := some "too many arguments. Usage: bind [CODE|ALIAS]" } := rfl

/-- C9: the no-argument invocation of `bind.execute` never modifies the binds
table, whether it replays a bind or raises. -/
theorem bind_noargs_readonly (resolve : String → Except String Unit)
    (author : String) (binds : List (String × String)) :
    (bindExecute resolve author binds []).binds = binds := by
  unfold bindExecute
  cases fetchBind binds author <;> rfl

/-! ## Helper lemmas about the alias ordering -/

lemma charListLe_total : ∀ a b : List Char, charListLe a b = true ∨ charListLe b a = true
  | [], _ => Or.inl rfl
  | _ :: _, [] => Or.inr rfl
  | a :: as, b :: bs => by
    rcases lt_trichotomy a b with h | h | h
    · exact Or.inl (by simp [charListLe, h])
    · subst h
      rcases charListLe_total as bs with ih | ih
      · exact Or.inl (by simp [charListLe, lt_self_iff_false, ih])
      · exact Or.inr (by simp [charListLe, lt_self_iff_false, ih])
    · exact Or.inr (by simp [charListLe, h])

lemma charListLe_trans : ∀ a b c : List Char,
    charListLe a b = true → charListLe b c = true → charListLe a c = true
  | [], _, _, _, _ => rfl
  | _ :: _, [], _, h1, _ => by simp [charListLe] at h1
  | _ :: _, _ :: _, [], _, h2 => by simp [charListLe] at h2
  | a :: as, b :: bs, c :: cs, h1, h2 => by
    simp only [charListLe] at h1 h2 ⊢
    by_cases hab : a < b
    · by_cases hbc : b < c
      · rw [if_pos (lt_trans hab hbc)]
      · by_cases hcb : c < b
        · rw [if_neg hbc, if_pos hcb] at h2
          simp at h2
        · have hbe : b = c := le_antisymm (not_lt.1 hcb) (not_lt.1 hbc)
          subst hbe
          rw [if_pos hab]
    · by_cases hba : b < a
      · rw [if_neg hab, if_pos hba] at h1
        simp at h1
      · have hae : a = b := le_antisymm (not_lt.1 hba) (not_lt.1 hab)
        subst hae
        rw [if_neg hab, if_neg hba] at h1
        by_cases hac : a < c
        · rw [if_pos hac]
        · by_cases hca : c < a
          · rw [if_neg hac, if_pos hca] at h2
            simp at h2
          · have hce : a = c := le_antisymm (not_lt.1 hca) (not_lt.1 hac)
            subst hce
            rw [if_neg hac, if_neg hca] at h2 ⊢
            exact charListLe_trans as bs cs h1 h2

instance : IsTotal AliasRow aliasLe :=
  ⟨fun a b => charListLe_total a.commandname.toList b.commandname.toList⟩

instance : IsTrans AliasRow aliasLe :=
  ⟨fun a b c => charListLe_trans a.commandname.toList b.commandname.toList c.commandname.toList⟩

/-- Pages of one invocation: `into_pages` applied to the header columns and
the filtered, sorted rows. -/
def searchPages (intoPages : List String → List AliasRow → List String)
    (aliases : List AliasRow) (kw : String) : List String :=
  intoPages ["Alias", "Action", "Author", "Created"] (searchRows aliases kw)

/-! ## Claims about search.py -/

/-- C4: the `rows` value of `search.execute` keeps exactly the alias rows
whose commandname starts with the keyword (case-sensitive literal prefix,
stated as a permutation of the filtered table) and is ordered by
commandname; on the catalog with commandnames world, hello, help and
keyword `hel` it is exactly hello then help. -/
theorem search_rows_filter_sorted :
    (∀ (aliases : List AliasRow) (kw : String),
        (searchRows aliases kw).Pairwise aliasLe
          ∧ (searchRows aliases kw).Perm
              (aliases.filter (fun t => pyStartsWith t.commandname kw)))
      ∧ (searchRows demoAliases "hel").map AliasRow.commandname = ["hello", "help"] := by
  constructor
  · intro aliases kw
    constructor
    · exact List.Pairwise.filter _ (List.sorted_insertionSort aliasLe aliases)
    · exact (List.perm_insertionSort aliasLe aliases).filter _
  · decide

/-- C5: with matching aliases, `search.execute` shows page 1 when no page
argument is given; a page argument naming page `i` with `1 ≤ i ≤ pageCount`
shows that page; a page argument out of that range raises the
invalid-page-number error. -/
theorem search_page_selection
    (intoPages : List String → List AliasRow → List String)
    (aliases : List AliasRow) (kw : String)
    (hm : searchRows aliases kw ≠ []) :
    (0 < (searchPages intoPages aliases kw).length →
        searchExecute intoPages aliases [kw]
          = { replies := [pageHeader 0 (searchPages intoPages aliases kw).length,
                          (searchPages intoPages aliases kw).getD 0 ""],
              error := none })
      ∧ (∀ (s : String) (i : Int), pythonInt s = some i →
          1 ≤ i → i ≤ ((searchPages intoPages aliases kw).length : Int) →
          searchExecute intoPages aliases [kw, s]
            = { replies := [pageHeader (i - 1) (searchPages intoPages aliases kw).length,
                            (searchPages intoPages aliases kw).getD (i - 1).toNat ""],
                error := none })
      ∧ (∀ (s : String) (i : Int), pythonInt s = some i →
          (i < 1 ∨ ((searchPages intoPages aliases kw).length : Int) < i) →
          searchExecute intoPages aliases [kw, s]
            = { replies := [], error := some "invalid page number" }) := by
  have hlen : ¬ (searchRows aliases kw).length < 1 := by
    have := List.length_pos.2 hm
    omega
  refine ⟨?_, ?_, ?_⟩
  · intro hp
    unfold searchPages at hp ⊢
    unfold searchExecute
    dsimp only
    rw [if_neg hlen]
    unfold searchShow
    rw [if_neg (by omega)]
    rfl
  · intro s i hs h1 h2
    unfold searchPages at h2 ⊢
    unfold searchExecute
    dsimp only
    rw [if_neg hlen, hs]
    dsimp only
    unfold searchShow
    rw [if_neg (by omega)]
  · intro s i hs hout
    unfold searchPages at hout
    unfold searchExecute
    dsimp only
    rw [if_neg hlen, hs]
    dsimp only
    unfold searchShow
    rw [if_pos (by omega)]

/-- Witness for C5 at a concrete catalog and pager: pages are the matching
commandnames, one per page. -/
theorem search_page_selection_witness :
    searchExecute demoPager demoAliases ["hel"]
      = { replies := [pageHeader 0 2, "hello"], error := none }
    ∧ searchExecute demoPager demoAliases ["hel", "2"]
      = { replies := [pageHeader 1 2, "help"], error := none }
    ∧ searchExecute demoPager demoAliases ["hel", "3"]
      = { replies := [], error := some "invalid page number" } := by
  have h := search_page_selection demoPager demoAliases "hel" (by decide)
  refine ⟨?_, ?_, ?_⟩
  · exact (h.1 (by decide)).trans (by decide)
  · exact (h.2.1 "2" 2 (by decide) (by decide) (by decide)).trans (by decide)
  · exact h.2.2 "3" 3 (by decide) (by decide)

/-- C7: when no alias commandname starts with the keyword, `search.execute`
raises the couldn-not-find error naming the keyword and produces no reply. -/
theorem search_no_match
    (intoPages : List String → List AliasRow → List String)
    (aliases : List AliasRow) (kw : String) (rest : List String)
    (h : aliases.filter (fun t => pyStartsWith t.commandname kw) = []) :
    searchExecute intoPages aliases (kw :: rest)
      = { replies := [],
          error := some ("couldn\x27t find any aliases like \x27" ++ kw ++ "\x27") } := by
  have hz : searchRows aliases kw = [] := by
    have hp := (List.perm_insertionSort aliasLe aliases).filter
      (fun t => pyStartsWith t.commandname kw)
    rw [h] at hp
    exact hp.eq_nil
  unfold searchExecute
  dsimp only
  rw [hz]
  rfl

/-- Witness for C7 at a concrete catalog. -/
theorem search_no_match_witness :
    searchExecute demoPager demoAliases ["zzz"]
      = { replies := [],
          error := some ("couldn\x27t find any aliases like \x27" ++ "zzz" ++ "\x27") } :=
  search_no_match demoPager demoAliases "zzz" [] (by decide)

/-- C10: with matches present and a non-integer page argument, the unguarded
`int(argv[1])` raises first: no reply is emitted and the error is the
int-conversion error, not the invalid-page-number one. -/
theorem search_nonint_page
    (intoPages : List String → List AliasRow → List String)
    (aliases : List AliasRow) (kw s : String) (rest : List String)
    (hm : searchRows aliases kw ≠ []) (hbad : pythonInt s = none) :
    searchExecute intoPages aliases (kw :: s :: rest)
      = { replies := [], error := some (intValueError s) }
    ∧ intValueError s ≠ "invalid page number" := by
  have e1 : ("invalid literal for int() with base 10: \x27" : String).length = 41 := by decide
  have e2 : ("\x27" : String).length = 1 := by decide
  have e3 : ("invalid page number" : String).length = 19 := by decide
  constructor
  · unfold searchExecute
    dsimp only
    rw [if_neg (by have := List.length_pos.2 hm; omega), hbad]
  · intro hc
    have hlen := congrArg String.length hc
    simp only [intValueError, String.length_append, e1, e2, e3] at hlen
    omega

/-- Witness for C10 at a concrete catalog and argument. -/
theorem search_nonint_page_witness :
    searchExecute demoPager demoAliases ["hel", "abc"]
      = { replies := [], error := some (intValueError "abc") }
    ∧ intValueError "abc" ≠ "invalid page number" :=
  search_nonint_page demoPager demoAliases "hel" "abc" [] (by decide) (by decide)
